import Mathlib

/-!
Verification of the danmaku (overlay-event) scheduler core of the repository,
a shallow embedding of `src/components/Danmaku.tsx`.

Times (playback clock, wall clock) are modelled as rationals, JS numbers by
exact rational arithmetic.  The per-tick display effect, the lane allocator
(`TrackManager.findAvailableTrack`), the object pool (`DanmakuPool`) and the
backward-seek repair are translated definition by definition from the source.
-/

namespace Danmaku

/-- A danmaku event as supplied by the event store (`DanmakuItem` in
`src/lib/types`): due time in seconds, text, and type (1 scroll, 2 top,
3 bottom). Color and size do not influence scheduling and are omitted. -/
structure DanmakuItem where
  time : ℚ
  text : String
  type : ℕ
deriving DecidableEq, Repr

/-- The identity key of an event, the embedding of the JS template string
key = time + "-" + text (line 379 / 734). -/
abbrev Key := ℚ × String

def keyOf (it : DanmakuItem) : Key := (it.time, it.text)

/-- A live danmaku instance (interface `DanmakuInstance`, lines 23-41).
The DOM element is abstracted to a numeric handle. -/
structure Instance where
  handle : ℕ
  item : DanmakuItem
  key : Key
  type : ℕ
  track : ℤ
  startTime : ℚ
  startTimestamp : ℚ
  duration : ℚ
  startX : ℚ
  startY : ℚ
  endX : ℚ
  endY : ℚ
  width : ℚ
  height : ℚ
  speed : ℚ
  opacity : ℚ
  isActive : Bool
deriving DecidableEq, Repr

/-! ## Lane allocator (`TrackManager`) -/

/-- Conflict check of one lane against a candidate of width `danmakuWidth`
entering at the right boundary `containerWidth`
(`TrackManager.findAvailableTrack` inner loop, lines 100-123). -/
def trackHasConflict (danmakuWidth containerWidth now : ℚ)
    (occupants : List Instance) : Bool :=
  occupants.any (fun existing =>
    if existing.isActive = false then false
    else
      let elapsed := (now - existing.startTimestamp) / 1000
      if elapsed < 0 ∨ elapsed > existing.duration then false
      else
        let existingX := existing.startX - existing.speed * elapsed
        let existingEndX := existingX + existing.width
        let newStartX := containerWidth
        let newEndX := newStartX + danmakuWidth
        decide (newEndX > existingX ∧ newStartX < existingEndX))

/-- Scan of the lanes in increasing index order, returning the first
non-conflicting index (`findAvailableTrack` outer loop, lines 99-130).
The lane table is the list of lanes indexed 0,1,…  -/
def findAvailableTrackGo (danmakuWidth containerWidth now : ℚ) :
    List (List Instance) → Option ℕ
  | [] => none
  | lane :: rest =>
    if trackHasConflict danmakuWidth containerWidth now lane then
      (findAvailableTrackGo danmakuWidth containerWidth now rest).map (· + 1)
    else some 0

/-- `TrackManager.findAvailableTrack` (lines 91-131).  The `speed` argument of
the source is unused by the collision test and is dropped. -/
def findAvailableTrack (tracks : List (List Instance))
    (danmakuWidth containerWidth now : ℚ) : Option ℕ :=
  findAvailableTrackGo danmakuWidth containerWidth now tracks

/-- `TrackManager.addToTrack` (lines 134-142): append to the lane's list.
Call sites only pass indices returned by `findAvailableTrack`, all < length. -/
def addToTrack (tracks : List (List Instance)) (t : ℕ) (inst : Instance) :
    List (List Instance) :=
  tracks.set t ((tracks.getD t []) ++ [inst])

/-- `TrackManager.removeFromTrack` (lines 145-153): splice the instance out of
the lane recorded in its `track` field; no-op for track -1 or out of range. -/
def removeFromTrack (tracks : List (List Instance)) (inst : Instance) :
    List (List Instance) :=
  if inst.track < 0 then tracks
  else tracks.set inst.track.toNat ((tracks.getD inst.track.toNat []).erase inst)

/-! ## Object pool (`DanmakuPool`) -/

/-- A render handle: the subset of DOM element state that the pool touches
(lines 176-196). -/
structure Handle where
  className : String
  cssText : String
  textContent : String
  dataKey : Option String
  dataType : Option String
  dataTrack : Option String
deriving DecidableEq, Repr

/-- `maxPoolSize` (line 169). -/
def maxPoolSize : ℕ := 100

/-- The reset performed at the start of `DanmakuPool.release` (lines 182-187). -/
def resetElement (e : Handle) : Handle :=
  { e with
    cssText := ""
    textContent := ""
    dataKey := none
    dataType := none
    dataTrack := none }

/-- A freshly constructed element (lines 176-178). -/
def newElement : Handle :=
  { className := "danmaku-item"
    cssText := ""
    textContent := ""
    dataKey := none
    dataType := none
    dataTrack := none }

/-- `DanmakuPool.get` (lines 171-179): pop the last pooled element, or
construct a new one. -/
def DanmakuPool.get (pool : List Handle) : Handle × List Handle :=
  match pool.getLast? with
  | some e => (e, pool.dropLast)
  | none => (newElement, pool)

/-- `DanmakuPool.release` (lines 181-197): reset, then push when below
capacity, else discard. -/
def DanmakuPool.release (pool : List Handle) (e : Handle) : List Handle :=
  if pool.length < maxPoolSize then pool ++ [resetElement e] else pool

/-- `DanmakuPool.clear` (lines 199-206). -/
def DanmakuPool.clear : List Handle := []

/-- The pool's externally reachable operations. -/
inductive PoolOp where
  | get : PoolOp
  | release : Handle → PoolOp
  | clear : PoolOp

def applyPoolOp (pool : List Handle) : PoolOp → List Handle
  | .get => (DanmakuPool.get pool).2
  | .release e => DanmakuPool.release pool e
  | .clear => DanmakuPool.clear

/-- Pool state after a sequence of operations from the initial empty pool. -/
def runPool (ops : List PoolOp) : List Handle :=
  ops.foldl applyPoolOp []

/-! ## Scheduler state and environment

The mutable refs of the component that the display effect (lines 641-772)
reads and writes.  In the tick, pool elements are tracked by their numeric
handle; `nextHandle` supplies identities for freshly constructed elements. -/

structure SchedState where
  active : List (Key × Instance)
  displayed : List Key
  tracks : List (List Instance)
  pool : List ℕ
  nextHandle : ℕ
  lastCurrentTime : ℚ
  lastDanmakuTime : ℚ
  topIdx : ℕ
  bottomIdx : ℕ
deriving DecidableEq, Repr

/-- The parts of the environment a tick reads: the loaded event list, the
density prop, container geometry, the wall clock (`performance.now`, in
milliseconds), the random shuffle, the rendered text measurement, and the
random vertical offset used for trackless scroll danmaku. -/
structure Env where
  danmakuList : List DanmakuItem
  density : ℚ
  containerWidth : ℚ
  containerHeight : ℚ
  now : ℚ
  shuffle : List DanmakuItem → List DanmakuItem
  measure : DanmakuItem → ℚ
  measureH : DanmakuItem → ℚ
  randomY : ℚ

/-- `DanmakuPool.get` as seen by the tick: pop the last pooled handle, or mint
a fresh one. -/
def poolAcquire (pool : List ℕ) (next : ℕ) : ℕ × List ℕ × ℕ :=
  match pool.getLast? with
  | some h => (h, pool.dropLast, next)
  | none => (next, pool, next + 1)

/-- `DanmakuPool.release` as seen by the tick (handle identity only). -/
def releaseHandle (pool : List ℕ) (h : ℕ) : List ℕ :=
  if pool.length < maxPoolSize then pool ++ [h] else pool

/-- `Map.set` on the active-instance map: replace the entry with the key if
one exists, else append. -/
def mapSet (m : List (Key × Instance)) (k : Key) (v : Instance) :
    List (Key × Instance) :=
  if m.any (fun kv => decide (kv.1 = k)) then
    m.map (fun kv => if kv.1 = k then (k, v) else kv)
  else m ++ [(k, v)]

/-- `createDanmakuInstance` (lines 374-513): dedup-set guard, element
acquisition from the pool, per-type instance construction, registration in
the dedup set and the active map.  Returns the created instance (if any) and
the updated state. -/
def createDanmakuInstance (env : Env) (p : ℚ) (s : SchedState)
    (item : DanmakuItem) (track : Option ℕ) : Option Instance × SchedState :=
  let k := keyOf item
  if k ∈ s.displayed then (none, s)
  else
    let acq := poolAcquire s.pool s.nextHandle
    let h := acq.1
    let pool₁ := acq.2.1
    let next₁ := acq.2.2
    let w := env.measure item
    let ht := env.measureH item
    if item.type = 1 then
      let speed : ℚ := 100
      let dur := (env.containerWidth + w) / speed
      let y : ℚ := match track with
        | some t => (t : ℚ) * 30 + 15
        | none => env.randomY
      let inst : Instance :=
        { handle := h
          item := item
          key := k
          type := 1
          track := match track with | some t => (t : ℤ) | none => -1
          startTime := p
          startTimestamp := env.now
          duration := dur
          startX := env.containerWidth
          startY := y
          endX := -w
          endY := y
          width := w
          height := ht
          speed := speed
          opacity := 1
          isActive := true }
      (some inst,
        { s with
          pool := pool₁
          nextHandle := next₁
          displayed := k :: s.displayed
          active := mapSet s.active k inst })
    else if item.type = 2 then
      let y : ℚ := 10 + (s.topIdx : ℚ) * 35
      let inst : Instance :=
        { handle := h
          item := item
          key := k
          type := 2
          track := -1
          startTime := p
          startTimestamp := env.now
          duration := 7/2
          startX := env.containerWidth / 2
          startY := y
          endX := env.containerWidth / 2
          endY := y
          width := w
          height := ht
          speed := 0
          opacity := 1
          isActive := true }
      (some inst,
        { s with
          pool := pool₁
          nextHandle := next₁
          topIdx := (s.topIdx + 1) % 5
          displayed := k :: s.displayed
          active := mapSet s.active k inst })
    else if item.type = 3 then
      let y : ℚ := env.containerHeight - 10 - (s.bottomIdx : ℚ) * 35 - ht
      let inst : Instance :=
        { handle := h
          item := item
          key := k
          type := 3
          track := -1
          startTime := p
          startTimestamp := env.now
          duration := 7/2
          startX := env.containerWidth / 2
          startY := y
          endX := env.containerWidth / 2
          endY := y
          width := w
          height := ht
          speed := 0
          opacity := 1
          isActive := true }
      (some inst,
        { s with
          pool := pool₁
          nextHandle := next₁
          bottomIdx := (s.bottomIdx + 1) % 5
          displayed := k :: s.displayed
          active := mapSet s.active k inst })
    else
      (none, { s with pool := releaseHandle pool₁ h, nextHandle := next₁ })

/-! ## The per-tick display effect (lines 641-772) -/

/-- Display interval: `density > 0 ? Math.max(0.5, 100 / density) : Infinity`
(line 659); `none` stands for `Infinity`. -/
def displayInterval (density : ℚ) : Option ℚ :=
  if 0 < density then some (max (1/2) (100 / density)) else none

/-- `timeSinceLastDanmaku < displayInterval` (line 663); any finite value is
below `Infinity`. -/
def intervalBlocks : Option ℚ → ℚ → Bool
  | some i, ts => decide (ts < i)
  | none, _ => true

/-- The count of active scroll instances (lines 668-670). -/
def activeScrollCount (s : SchedState) : ℕ :=
  (s.active.filter (fun kv => decide (kv.2.type = 1) && kv.2.isActive)).length

/-- `maxConcurrent = Math.max(5, Math.floor((density / 100) * 50))`
(line 672). -/
def maxConcurrent (density : ℚ) : ℤ :=
  max 5 ⌊density / 100 * 50⌋

/-- Upper bound of the due-window test; `none` is the infinite window that
arises from `Math.ceil(Infinity)` at density 0. -/
def twOk : Option ℤ → ℤ → DanmakuItem → Bool
  | none, _, _ => true
  | some w, cs, it => decide (⌊it.time⌋ < cs + w)

/-- The due-candidate filter (lines 679-681):
`Math.floor(item.time) >= currentSecond && Math.floor(item.time) < currentSecond + timeWindow`. -/
def dueFilter (danmakuList : List DanmakuItem) (cs : ℤ) (tw : Option ℤ) :
    List DanmakuItem :=
  danmakuList.filter (fun it => decide (cs ≤ ⌊it.time⌋) && twOk tw cs it)

/-- JavaScript `Array.prototype.slice(0, t)`: a negative end counts from the
end of the array. -/
def jsSlice {α : Type} (l : List α) (t : ℤ) : List α :=
  l.take (if t < 0 then ((l.length : ℤ) + t).toNat else t.toNat)

/-- The density-based selection (lines 714-721): slice of the shuffled due
list at `min(remainingCapacity, densityBasedCount, 3)`. -/
def selectByDensity (env : Env) (scrollCount : ℕ)
    (due : List DanmakuItem) : List DanmakuItem :=
  if 0 < due.length then
    let remainingCapacity : ℤ := maxConcurrent env.density - (scrollCount : ℤ)
    let densityBasedCount : ℤ := ⌈((due.length : ℚ) * env.density) / 100⌉
    let targetCount : ℤ := min (min remainingCapacity densityBasedCount) 3
    jsSlice (env.shuffle due) targetCount
  else due

/-- One step of the backward-seek repair loop (lines 686-696): an active
instance whose admission-time playback position is later than the new
position is deactivated, spliced out of its lane, its element returned to
the pool, and its entries removed from the active map and the dedup set. -/
def seekCleanupEntry (p : ℚ) (acc : SchedState) (kv : Key × Instance) :
    SchedState :=
  if kv.2.startTime > p then
    { acc with
      active := acc.active.filter (fun kv' => decide (kv'.1 ≠ kv.1))
      tracks := removeFromTrack acc.tracks kv.2
      pool := releaseHandle acc.pool kv.2.handle
      displayed := acc.displayed.filter (fun k => decide (k ≠ kv.1)) }
  else acc

/-- The backward-seek repair (lines 684-705): force-expire instances admitted
after the new position, then clear the dedup keys of events due in the
current second. -/
def seekCleanup (danmakuList : List DanmakuItem) (cs : ℤ) (p : ℚ)
    (s : SchedState) : SchedState :=
  let s₁ := s.active.foldl (seekCleanupEntry p) s
  { s₁ with
    displayed := s₁.displayed.filter (fun k =>
      !(danmakuList.any (fun it => decide (⌊it.time⌋ = cs) && decide (keyOf it = k)))) }

/-- The per-item admission step (lines 733-771): dedup and active-map guards,
then lane search and instance creation for scroll items, direct creation for
top/bottom items. -/
def admitItem (env : Env) (p : ℚ) (s : SchedState) (item : DanmakuItem) :
    SchedState :=
  let k := keyOf item
  if k ∈ s.displayed then s
  else if s.active.any (fun kv => decide (kv.1 = k)) then s
  else if item.type = 1 then
    let w := env.measure item
    match findAvailableTrack s.tracks w env.containerWidth env.now with
    | some t =>
      match createDanmakuInstance env p s item (some t) with
      | (some inst, s') => { s' with tracks := addToTrack s'.tracks t inst }
      | (none, s') => s'
    | none => s
  else
    (createDanmakuInstance env p s item none).2

/-- The body of the display effect after its two early-return gates
(lines 667-771).  `scrollCount` is read before the backward-seek repair, as
in the source; the repair (when `back`) precedes the admission loop. -/
def tickCore (env : Env) (s : SchedState) (p : ℚ) (back : Bool) : SchedState :=
  let cs : ℤ := ⌊p⌋
  let scrollCount := activeScrollCount s
  let tw : Option ℤ := (displayInterval env.density).map (fun i => max 1 ⌈i⌉)
  let due₀ := dueFilter env.danmakuList cs tw
  let s₂ := if back then seekCleanup env.danmakuList cs p s else s
  let due₁ :=
    if back then env.danmakuList.filter (fun it => decide (⌊it.time⌋ = cs))
    else due₀
  let selected := selectByDensity env scrollCount due₁
  if selected.isEmpty then s₂
  else
    let s₃ := { s₂ with lastDanmakuTime := p }
    selected.foldl (admitItem env p) s₃

/-- One scheduling tick of the display effect (lines 641-772) at playback
position `p`, with the component enabled and the event list loaded.  The
backward-seek flag is derived from the last observed position; the two
early-return gates (display interval, concurrency cap) apply only to forward
ticks. -/
def tick (env : Env) (s : SchedState) (p : ℚ) : SchedState :=
  let back := decide (p < s.lastCurrentTime)
  let s₁ := { s with lastCurrentTime := p }
  if back = false ∧ intervalBlocks (displayInterval env.density) (p - s.lastDanmakuTime) = true then
    s₁
  else if back = false ∧ (activeScrollCount s₁ : ℤ) ≥ maxConcurrent env.density then
    s₁
  else tickCore env s₁ p back

/-- The initial scheduler state with `n` empty lanes. -/
def initState (n : ℕ) : SchedState :=
  { active := []
    displayed := []
    tracks := List.replicate n []
    pool := []
    nextHandle := 0
    lastCurrentTime := 0
    lastDanmakuTime := 0
    topIdx := 0
    bottomIdx := 0 }

/-- A run of the scheduler: successive ticks at the given playback
positions. -/
def runTicks (env : Env) (s : SchedState) (ps : List ℚ) : SchedState :=
  ps.foldl (tick env) s

/-! ## Concrete inputs used by witnesses and counterexamples -/

/-- An in-flight scroll instance occupying lane 0 and blocking the whole
entry span at the right boundary (its animation has just started). -/
def blockerInstance : Instance :=
  { handle := 0
    item := { time := 0, text := "b", type := 1 }
    key := ((0 : ℚ), "b")
    type := 1
    track := 0
    startTime := 0
    startTimestamp := 0
    duration := 9
    startX := 800
    startY := 15
    endX := -100
    endY := 15
    width := 100
    height := 10
    speed := 100
    opacity := 1
    isActive := true }

/-- Environment with one due scroll event at playback second 5, full
density, one lane blocked by `blockerInstance`. -/
def envOneLaneBlocked : Env :=
  { danmakuList := [{ time := 5, text := "x", type := 1 }]
    density := 100
    containerWidth := 800
    containerHeight := 400
    now := 0
    shuffle := id
    measure := fun _ => 50
    measureH := fun _ => 10
    randomY := 0 }

/-- State whose single lane is fully blocked by `blockerInstance`. -/
def stateOneLaneBlocked : SchedState :=
  { active := [(((0 : ℚ), "b"), blockerInstance)]
    displayed := [((0 : ℚ), "b")]
    tracks := [[blockerInstance]]
    pool := []
    nextHandle := 1
    lastCurrentTime := 0
    lastDanmakuTime := -100
    topIdx := 0
    bottomIdx := 0 }

/-- Environment with a single scroll event at second 8, density 50 (so the
forward sampling window is two seconds wide), and a free lane. -/
def envLateEvent : Env :=
  { danmakuList := [{ time := 8, text := "x", type := 1 }]
    density := 50
    containerWidth := 800
    containerHeight := 400
    now := 0
    shuffle := id
    measure := fun _ => 50
    measureH := fun _ => 10
    randomY := 0 }

/-- Empty state whose last observed playback position is 20 (so a tick at a
smaller position is a backward seek). -/
def stateAfter20 : SchedState :=
  { active := []
    displayed := []
    tracks := [[]]
    pool := []
    nextHandle := 0
    lastCurrentTime := 20
    lastDanmakuTime := 0
    topIdx := 0
    bottomIdx := 0 }

/-- The due scroll event of `envOneLaneBlocked`. -/
def itemX5 : DanmakuItem := { time := 5, text := "x", type := 1 }

/-- An event due at 5.1 seconds: inside the source's floor-based window of a
tick at playback position 5.5, outside the real-valued window [5.5, 6.5). -/
def itemEarly : DanmakuItem := { time := 51/10, text := "a", type := 1 }

/-- A scroll instance due at 10 but admitted early, at playback position 8
(the sampling window looks ahead of the playback clock). -/
def earlyAdmitted : Instance :=
  { handle := 0
    item := { time := 10, text := "e", type := 1 }
    key := ((10 : ℚ), "e")
    type := 1
    track := 0
    startTime := 8
    startTimestamp := 0
    duration := 9
    startX := 800
    startY := 15
    endX := -100
    endY := 15
    width := 100
    height := 10
    speed := 100
    opacity := 1
    isActive := true }

/-- Environment with an empty event list. -/
def envEmptyList : Env :=
  { danmakuList := []
    density := 100
    containerWidth := 800
    containerHeight := 400
    now := 0
    shuffle := id
    measure := fun _ => 50
    measureH := fun _ => 10
    randomY := 0 }

/-- State holding `earlyAdmitted` as its only active instance, last observed
playback position 20. -/
def stateEarlyAdmitted : SchedState :=
  { active := [(((10 : ℚ), "e"), earlyAdmitted)]
    displayed := [((10 : ℚ), "e")]
    tracks := [[earlyAdmitted]]
    pool := []
    nextHandle := 1
    lastCurrentTime := 20
    lastDanmakuTime := 0
    topIdx := 0
    bottomIdx := 0 }

/-- Environment at density 0 (the admission interval becomes infinite). -/
def envZeroDensity : Env :=
  { danmakuList := [{ time := 5, text := "z", type := 1 }]
    density := 0
    containerWidth := 800
    containerHeight := 400
    now := 0
    shuffle := id
    measure := fun _ => 50
    measureH := fun _ => 10
    randomY := 0 }

/-- Ten distinct candidates, all due at second 5. -/
def dueTen : List DanmakuItem :=
  [{ time := 5, text := "t0", type := 1 }, { time := 5, text := "t1", type := 1 },
   { time := 5, text := "t2", type := 1 }, { time := 5, text := "t3", type := 1 },
   { time := 5, text := "t4", type := 1 }, { time := 5, text := "t5", type := 1 },
   { time := 5, text := "t6", type := 1 }, { time := 5, text := "t7", type := 1 },
   { time := 5, text := "t8", type := 1 }, { time := 5, text := "t9", type := 1 }]

/-- Environment at density 10 with the ten candidates of `dueTen` loaded. -/
def envDensity10 : Env :=
  { danmakuList := dueTen
    density := 10
    containerWidth := 800
    containerHeight := 400
    now := 0
    shuffle := id
    measure := fun _ => 50
    measureH := fun _ => 10
    randomY := 0 }

/-! ## Helper lemmas -/

theorem findAvailableTrackGo_some (w cw now : ℚ) (lanes : List (List Instance)) :
    ∀ t : ℕ, findAvailableTrackGo w cw now lanes = some t ↔
      t < lanes.length ∧ trackHasConflict w cw now (lanes.getD t []) = false ∧
      ∀ j, j < t → trackHasConflict w cw now (lanes.getD j []) = true := by
  induction lanes with
  | nil => intro t; simp [findAvailableTrackGo]
  | cons lane rest ih =>
    intro t
    simp only [findAvailableTrackGo]
    by_cases h : trackHasConflict w cw now lane = true
    · rw [if_pos h]
      cases t with
      | zero =>
        simp only [Option.map_eq_some', List.getD_cons_zero]
        constructor
        · rintro ⟨a, -, ha⟩
          exact absurd ha (by omega)
        · rintro ⟨-, hc, -⟩
          rw [h] at hc
          exact absurd hc (by simp)
      | succ n =>
        simp only [Option.map_eq_some', List.length_cons, List.getD_cons_succ]
        constructor
        · rintro ⟨a, hrest, ha⟩
          have han : a = n := by omega
          rw [han] at hrest
          obtain ⟨h1, h2, h3⟩ := (ih n).mp hrest
          refine ⟨by omega, h2, ?_⟩
          intro j hj
          cases j with
          | zero => simpa using h
          | succ m => simpa using h3 m (by omega)
        · rintro ⟨h1, h2, h3⟩
          refine ⟨n, (ih n).mpr ⟨by omega, h2, ?_⟩, by omega⟩
          intro j hj
          simpa using h3 (j + 1) (by omega)
    · rw [if_neg h]
      cases t with
      | zero =>
        constructor
        · intro
          refine ⟨by simp, ?_, fun j hj => absurd hj (by omega)⟩
          rw [List.getD_cons_zero]
          simpa using h
        · intro
          rfl
      | succ n =>
        constructor
        · intro hc
          exact absurd hc (by simp)
        · rintro ⟨-, -, h3⟩
          have h0 := h3 0 (by omega)
          rw [List.getD_cons_zero] at h0
          exact absurd h0 h

theorem findAvailableTrackGo_none (w cw now : ℚ) (lanes : List (List Instance)) :
    findAvailableTrackGo w cw now lanes = none ↔
      ∀ j, j < lanes.length → trackHasConflict w cw now (lanes.getD j []) = true := by
  induction lanes with
  | nil => simp [findAvailableTrackGo]
  | cons lane rest ih =>
    simp only [findAvailableTrackGo]
    by_cases h : trackHasConflict w cw now lane = true
    · rw [if_pos h, Option.map_eq_none', ih]
      constructor
      · intro h3 j hj
        cases j with
        | zero => simpa using h
        | succ m =>
          rw [List.getD_cons_succ]
          exact h3 m (by simpa using hj)
      · intro h3 j hj
        have := h3 (j + 1) (by simpa using hj)
        rwa [List.getD_cons_succ] at this
    · rw [if_neg h]
      constructor
      · intro hc
        exact absurd hc (by simp)
      · intro h3
        have h0 := h3 0 (by simp)
        rw [List.getD_cons_zero] at h0
        exact absurd h0 h

theorem applyPoolOp_length_le (pool : List Handle) (op : PoolOp)
    (h : pool.length ≤ maxPoolSize) : (applyPoolOp pool op).length ≤ maxPoolSize := by
  cases op with
  | get =>
    simp only [applyPoolOp, DanmakuPool.get]
    cases hl : pool.getLast? with
    | none => simpa using h
    | some e =>
      simp only
      calc pool.dropLast.length ≤ pool.length := by
            rw [List.length_dropLast]; omega
        _ ≤ maxPoolSize := h
  | release e =>
    simp only [applyPoolOp, DanmakuPool.release]
    by_cases hlt : pool.length < maxPoolSize
    · rw [if_pos hlt]
      simp only [List.length_append, List.length_singleton]
      omega
    · rw [if_neg hlt]
      exact h
  | clear => simp [applyPoolOp, DanmakuPool.clear, maxPoolSize]

theorem foldl_applyPoolOp_length_le (ops : List PoolOp) :
    ∀ pool : List Handle, pool.length ≤ maxPoolSize →
      (ops.foldl applyPoolOp pool).length ≤ maxPoolSize := by
  induction ops with
  | nil => intro pool h; simpa using h
  | cons op rest ih =>
    intro pool h
    exact ih _ (applyPoolOp_length_le pool op h)

theorem mapSet_of_not_mem (m : List (Key × Instance)) (k : Key) (v : Instance)
    (h : m.any (fun kv => decide (kv.1 = k)) = false) :
    mapSet m k v = m ++ [(k, v)] := by
  simp [mapSet, h]

theorem mem_mapSet (m : List (Key × Instance)) (k : Key) (v : Instance) :
    ∀ kv ∈ mapSet m k v, kv ∈ m ∨ kv = (k, v) := by
  intro kv hkv
  unfold mapSet at hkv
  by_cases h : m.any (fun kv => decide (kv.1 = k)) = true
  · rw [if_pos h] at hkv
    obtain ⟨kv', hkv', heq⟩ := List.mem_map.mp hkv
    by_cases hk : kv'.1 = k
    · rw [if_pos hk] at heq
      right; exact heq.symm
    · rw [if_neg hk] at heq
      left; exact heq ▸ hkv'
  · rw [if_neg h] at hkv
    rcases List.mem_append.mp hkv with h' | h'
    · left; exact h'
    · right; simpa using h'

theorem createDanmakuInstance_lastCurrentTime (env : Env) (p : ℚ)
    (s : SchedState) (item : DanmakuItem) (track : Option ℕ) :
    ((createDanmakuInstance env p s item track).2).lastCurrentTime =
      s.lastCurrentTime := by
  simp only [createDanmakuInstance]
  split_ifs <;> rfl

theorem createDanmakuInstance_lastDanmakuTime (env : Env) (p : ℚ)
    (s : SchedState) (item : DanmakuItem) (track : Option ℕ) :
    ((createDanmakuInstance env p s item track).2).lastDanmakuTime =
      s.lastDanmakuTime := by
  simp only [createDanmakuInstance]
  split_ifs <;> rfl

/-- Every active entry after `createDanmakuInstance` either was already
present or is the freshly created instance, which starts at the current
playback position. -/
theorem createDanmakuInstance_active_mem (env : Env) (p : ℚ) (s : SchedState)
    (item : DanmakuItem) (track : Option ℕ) :
    ∀ kv ∈ ((createDanmakuInstance env p s item track).2).active,
      kv ∈ s.active ∨ kv.2.startTime = p := by
  intro kv hkv
  simp only [createDanmakuInstance] at hkv
  split_ifs at hkv
  · exact Or.inl hkv
  · rcases mem_mapSet _ _ _ kv hkv with h | h
    · exact Or.inl h
    · right; rw [h]
  · rcases mem_mapSet _ _ _ kv hkv with h | h
    · exact Or.inl h
    · right; rw [h]
  · rcases mem_mapSet _ _ _ kv hkv with h | h
    · exact Or.inl h
    · right; rw [h]
  · exact Or.inl hkv

theorem admitItem_lastCurrentTime (env : Env) (p : ℚ) (s : SchedState)
    (item : DanmakuItem) :
    (admitItem env p s item).lastCurrentTime = s.lastCurrentTime := by
  simp only [admitItem]
  split_ifs with h1 h2 h3
  · rfl
  · rfl
  · cases hft : findAvailableTrack s.tracks (env.measure item)
      env.containerWidth env.now with
    | none => rfl
    | some t =>
      dsimp only
      have := createDanmakuInstance_lastCurrentTime env p s item (some t)
      cases hc : createDanmakuInstance env p s item (some t) with
      | mk inst s' =>
        rw [hc] at this
        cases inst with
        | none => exact this
        | some i => exact this
  · exact createDanmakuInstance_lastCurrentTime env p s item none

theorem admitItem_active_mem (env : Env) (p : ℚ) (s : SchedState)
    (item : DanmakuItem) :
    ∀ kv ∈ (admitItem env p s item).active,
      kv ∈ s.active ∨ kv.2.startTime = p := by
  intro kv hkv
  simp only [admitItem] at hkv
  split_ifs at hkv with h1 h2 h3
  · exact Or.inl hkv
  · exact Or.inl hkv
  · revert hkv
    cases hft : findAvailableTrack s.tracks (env.measure item)
      env.containerWidth env.now with
    | none => intro hkv; exact Or.inl hkv
    | some t =>
      dsimp only
      have := createDanmakuInstance_active_mem env p s item (some t)
      cases hc : createDanmakuInstance env p s item (some t) with
      | mk inst s' =>
        rw [hc] at this
        cases inst with
        | none => intro hkv; exact this kv hkv
        | some i => intro hkv; exact this kv hkv
  · have := createDanmakuInstance_active_mem env p s item none
    exact this kv hkv

theorem foldl_admitItem_lastCurrentTime (env : Env) (p : ℚ)
    (l : List DanmakuItem) :
    ∀ s : SchedState,
      (l.foldl (admitItem env p) s).lastCurrentTime = s.lastCurrentTime := by
  induction l with
  | nil => intro s; rfl
  | cons a l ih =>
    intro s
    rw [List.foldl_cons, ih, admitItem_lastCurrentTime]

theorem foldl_admitItem_active_mem (env : Env) (p : ℚ) (l : List DanmakuItem) :
    ∀ (s : SchedState) (kv : Key × Instance),
      kv ∈ (l.foldl (admitItem env p) s).active →
      kv ∈ s.active ∨ kv.2.startTime = p := by
  induction l with
  | nil => intro s kv hkv; exact Or.inl hkv
  | cons a l ih =>
    intro s kv hkv
    rw [List.foldl_cons] at hkv
    rcases ih (admitItem env p s a) kv hkv with h | h
    · exact admitItem_active_mem env p s a kv h
    · exact Or.inr h

theorem seekCleanupEntry_active_sublist (p : ℚ) (acc : SchedState)
    (kv : Key × Instance) :
    (seekCleanupEntry p acc kv).active.Sublist acc.active := by
  unfold seekCleanupEntry
  split_ifs
  · exact List.filter_sublist _
  · exact List.Sublist.refl _

theorem seekCleanupEntry_lastCurrentTime (p : ℚ) (acc : SchedState)
    (kv : Key × Instance) :
    (seekCleanupEntry p acc kv).lastCurrentTime = acc.lastCurrentTime := by
  unfold seekCleanupEntry
  split_ifs <;> rfl

theorem foldl_seekCleanupEntry_active_sublist (p : ℚ)
    (l : List (Key × Instance)) :
    ∀ acc : SchedState,
      (l.foldl (seekCleanupEntry p) acc).active.Sublist acc.active := by
  induction l with
  | nil => intro acc; exact List.Sublist.refl _
  | cons a l ih =>
    intro acc
    exact (ih (seekCleanupEntry p acc a)).trans
      (seekCleanupEntry_active_sublist p acc a)

theorem foldl_seekCleanupEntry_lastCurrentTime (p : ℚ)
    (l : List (Key × Instance)) :
    ∀ acc : SchedState,
      (l.foldl (seekCleanupEntry p) acc).lastCurrentTime =
        acc.lastCurrentTime := by
  induction l with
  | nil => intro acc; rfl
  | cons a l ih =>
    intro acc
    rw [List.foldl_cons, ih, seekCleanupEntry_lastCurrentTime]

/-- An active entry admitted at a playback position later than `p` never
survives the backward-seek repair loop. -/
theorem foldl_seekCleanupEntry_not_mem (p : ℚ) (l : List (Key × Instance)) :
    ∀ (acc : SchedState) (kv : Key × Instance), kv ∈ l → kv.2.startTime > p →
      kv ∉ (l.foldl (seekCleanupEntry p) acc).active := by
  induction l with
  | nil => intro acc kv hkv; exact absurd hkv (List.not_mem_nil kv)
  | cons a l ih =>
    intro acc kv hkv hst
    rcases List.mem_cons.mp hkv with rfl | hmem
    · intro hmem'
      have hsub := foldl_seekCleanupEntry_active_sublist p l
        (seekCleanupEntry p acc kv)
      have hin : kv ∈ (seekCleanupEntry p acc kv).active :=
        hsub.subset hmem'
      unfold seekCleanupEntry at hin
      rw [if_pos hst] at hin
      simp only [List.mem_filter] at hin
      have hne : kv.1 ≠ kv.1 := by simpa using hin.2
      exact hne rfl
    · exact ih (seekCleanupEntry p acc a) kv hmem hst

theorem seekCleanup_active_sublist (dl : List DanmakuItem) (cs : ℤ) (p : ℚ)
    (s : SchedState) :
    (seekCleanup dl cs p s).active.Sublist s.active := by
  unfold seekCleanup
  exact foldl_seekCleanupEntry_active_sublist p s.active s

theorem seekCleanup_lastCurrentTime (dl : List DanmakuItem) (cs : ℤ) (p : ℚ)
    (s : SchedState) :
    (seekCleanup dl cs p s).lastCurrentTime = s.lastCurrentTime := by
  unfold seekCleanup
  exact foldl_seekCleanupEntry_lastCurrentTime p s.active s

/-- After the backward-seek repair, every surviving active instance was
admitted at or before the new playback position. -/
theorem seekCleanup_active_le (dl : List DanmakuItem) (cs : ℤ) (p : ℚ)
    (s : SchedState) :
    ∀ kv ∈ (seekCleanup dl cs p s).active, kv.2.startTime ≤ p := by
  intro kv hkv
  by_contra hgt
  push_neg at hgt
  have hkv' : kv ∈ (s.active.foldl (seekCleanupEntry p) s).active := by
    simpa [seekCleanup] using hkv
  have hmem : kv ∈ s.active :=
    (foldl_seekCleanupEntry_active_sublist p s.active s).subset hkv'
  exact foldl_seekCleanupEntry_not_mem p s.active s kv hmem hgt hkv'

/-- A type-1 item for which no lane is available leaves the state untouched:
no instance, no dedup entry, nothing queued. -/
theorem admitItem_of_no_track (env : Env) (p : ℚ) (s : SchedState)
    (item : DanmakuItem) (h1 : item.type = 1)
    (h2 : findAvailableTrack s.tracks (env.measure item) env.containerWidth
      env.now = none) :
    admitItem env p s item = s := by
  simp [admitItem, h1, h2]

/-- For a positive density the display interval is strictly positive, and at
density 0 it is infinite: a zero elapsed time is always blocked. -/
theorem intervalBlocks_zero (d : ℚ) :
    intervalBlocks (displayInterval d) 0 = true := by
  rw [displayInterval]
  by_cases h : 0 < d
  · rw [if_pos h]
    show decide (0 < max (1/2) (100 / d)) = true
    rw [decide_eq_true_eq]
    calc (0 : ℚ) < 1/2 := by norm_num
      _ ≤ max (1/2) (100 / d) := le_max_left _ _
  · rw [if_neg h]
    rfl

/-- On a backward seek the two early-return gates are bypassed and the tick
runs the repair-then-admit core. -/
theorem tick_backward_eq (env : Env) (s : SchedState) (p : ℚ)
    (h : p < s.lastCurrentTime) :
    tick env s p = tickCore env { s with lastCurrentTime := p } p true := by
  have hb : decide (p < s.lastCurrentTime) = true := decide_eq_true h
  simp [tick, hb]

/-- On a forward tick blocked by the display-interval gate the state is
unchanged except for the recorded playback position. -/
theorem tick_forward_blocked_eq (env : Env) (s : SchedState) (p : ℚ)
    (h1 : ¬ p < s.lastCurrentTime)
    (h2 : intervalBlocks (displayInterval env.density)
      (p - s.lastDanmakuTime) = true) :
    tick env s p = { s with lastCurrentTime := p } := by
  have hb : decide (p < s.lastCurrentTime) = false := decide_eq_false h1
  simp [tick, hb, h2]

theorem setLastCurrentTime_eq (s : SchedState) (p : ℚ)
    (h : s.lastCurrentTime = p) :
    ({ s with lastCurrentTime := p } : SchedState) = s := by
  cases s
  simp_all

theorem tickCore_lastCurrentTime (env : Env) (s : SchedState) (p : ℚ)
    (back : Bool) :
    (tickCore env s p back).lastCurrentTime = s.lastCurrentTime := by
  simp only [tickCore]
  split_ifs <;>
    first
      | rfl
      | exact seekCleanup_lastCurrentTime _ _ _ _
      | (rw [foldl_admitItem_lastCurrentTime]; dsimp only;
          exact seekCleanup_lastCurrentTime _ _ _ _)
      | rw [foldl_admitItem_lastCurrentTime]

/-- Every tick records the playback position it observed. -/
theorem tick_lastCurrentTime (env : Env) (s : SchedState) (p : ℚ) :
    (tick env s p).lastCurrentTime = p := by
  simp only [tick]
  split_ifs with h1 h2
  · rfl
  · rfl
  · rw [tickCore_lastCurrentTime]

theorem maxConcurrent_zero : maxConcurrent 0 = 5 := by
  unfold maxConcurrent
  norm_num

theorem jsSlice_zero {α : Type} (l : List α) : jsSlice l 0 = [] := by
  simp [jsSlice]

/-- At density 0 with at most 5 active scroll instances the density-based
selection is empty: the density-based count is 0 and the remaining capacity
is nonnegative, so the slice is empty. -/
theorem selectByDensity_zero (env : Env) (sc : ℕ) (due : List DanmakuItem)
    (hd : env.density = 0) (hsc : sc ≤ 5) :
    selectByDensity env sc due = [] := by
  simp only [selectByDensity, hd]
  split_ifs with h
  · have h1 : ((due.length : ℚ) * 0) / 100 = 0 := by norm_num
    rw [h1, Int.ceil_zero, maxConcurrent_zero]
    have hsc' : (sc : ℤ) ≤ 5 := by exact_mod_cast hsc
    have h2 : min (min (5 - (sc : ℤ)) 0) 3 = 0 := by omega
    rw [h2, jsSlice_zero]
  · have hlen : due.length = 0 := by omega
    exact List.length_eq_zero.mp hlen

/-- At density 0 the display interval is infinite, so the interval gate
blocks every forward tick. -/
theorem displayInterval_zero : displayInterval 0 = none := by
  simp [displayInterval]

theorem jsSlice_length_eq {α : Type} (l : List α) (t : ℤ) (h0 : 0 ≤ t)
    (hl : t ≤ (l.length : ℤ)) : ((jsSlice l t).length : ℤ) = t := by
  unfold jsSlice
  rw [if_neg (not_lt.mpr h0), List.length_take]
  omega

theorem jsSlice_length_le {α : Type} (l : List α) (t : ℤ) (h0 : 0 ≤ t) :
    ((jsSlice l t).length : ℤ) ≤ t := by
  unfold jsSlice
  rw [if_neg (not_lt.mpr h0), List.length_take]
  omega

theorem nodup_append_singleton {α : Type} (l : List α) (a : α)
    (hN : l.Nodup) (ha : a ∉ l) : (l ++ [a]).Nodup := by
  rw [List.nodup_append]
  refine ⟨hN, List.nodup_singleton a, fun x hx hy => ?_⟩
  simp only [List.mem_singleton] at hy
  subst hy
  exact ha hx

/-- When the key is absent from the active map, the guard of the admission
loop translates to: no entry of the map carries the key. -/
theorem not_mem_map_fst_of_any_false (m : List (Key × Instance)) (k : Key)
    (h : m.any (fun kv => decide (kv.1 = k)) = false) :
    k ∉ m.map Prod.fst := by
  intro hmem
  obtain ⟨kv, hkv, hfst⟩ := List.mem_map.mp hmem
  have : m.any (fun kv => decide (kv.1 = k)) = true :=
    List.any_eq_true.mpr ⟨kv, hkv, by simp [hfst]⟩
  rw [this] at h
  cases h

theorem createDanmakuInstance_keys_nodup (env : Env) (p : ℚ) (s : SchedState)
    (item : DanmakuItem) (track : Option ℕ)
    (hguard : s.active.any (fun kv => decide (kv.1 = keyOf item)) = false)
    (hN : (s.active.map Prod.fst).Nodup) :
    (((createDanmakuInstance env p s item track).2).active.map Prod.fst).Nodup := by
  have ha : keyOf item ∉ s.active.map Prod.fst :=
    not_mem_map_fst_of_any_false s.active (keyOf item) hguard
  simp only [createDanmakuInstance]
  split_ifs <;>
    first
      | exact hN
      | (dsimp only
         rw [mapSet_of_not_mem _ _ _ hguard, List.map_append]
         exact nodup_append_singleton _ _ hN ha)

theorem admitItem_keys_nodup (env : Env) (p : ℚ) (s : SchedState)
    (item : DanmakuItem) (hN : (s.active.map Prod.fst).Nodup) :
    ((admitItem env p s item).active.map Prod.fst).Nodup := by
  simp only [admitItem]
  split_ifs with h1 h2 h3
  · exact hN
  · exact hN
  · have hguard : s.active.any (fun kv => decide (kv.1 = keyOf item)) = false := by
      cases hb : s.active.any (fun kv => decide (kv.1 = keyOf item)) with
      | false => rfl
      | true => exact absurd hb h2
    cases hft : findAvailableTrack s.tracks (env.measure item)
        env.containerWidth env.now with
    | none => exact hN
    | some t =>
      dsimp only
      have := createDanmakuInstance_keys_nodup env p s item (some t) hguard hN
      cases hc : createDanmakuInstance env p s item (some t) with
      | mk inst s' =>
        rw [hc] at this
        cases inst with
        | none => exact this
        | some i => exact this
  · have hguard : s.active.any (fun kv => decide (kv.1 = keyOf item)) = false := by
      cases hb : s.active.any (fun kv => decide (kv.1 = keyOf item)) with
      | false => rfl
      | true => exact absurd hb h2
    exact createDanmakuInstance_keys_nodup env p s item none hguard hN

theorem foldl_admitItem_keys_nodup (env : Env) (p : ℚ)
    (l : List DanmakuItem) :
    ∀ s : SchedState, (s.active.map Prod.fst).Nodup →
      ((l.foldl (admitItem env p) s).active.map Prod.fst).Nodup := by
  induction l with
  | nil => intro s h; exact h
  | cons a l ih =>
    intro s h
    exact ih _ (admitItem_keys_nodup env p s a h)

theorem tickCore_keys_nodup (env : Env) (s : SchedState) (p : ℚ) (back : Bool)
    (hN : (s.active.map Prod.fst).Nodup) :
    ((tickCore env s p back).active.map Prod.fst).Nodup := by
  have hclean : ((seekCleanup env.danmakuList ⌊p⌋ p s).active.map
      Prod.fst).Nodup :=
    hN.sublist (List.Sublist.map Prod.fst
      (seekCleanup_active_sublist env.danmakuList ⌊p⌋ p s))
  simp only [tickCore]
  split_ifs <;>
    first
      | exact hN
      | exact hclean
      | (apply foldl_admitItem_keys_nodup; exact hclean)
      | (apply foldl_admitItem_keys_nodup; exact hN)

theorem tick_keys_nodup (env : Env) (s : SchedState) (p : ℚ)
    (hN : (s.active.map Prod.fst).Nodup) :
    ((tick env s p).active.map Prod.fst).Nodup := by
  simp only [tick]
  split_ifs with h1 h2
  · exact hN
  · exact hN
  · exact tickCore_keys_nodup env _ p _ hN

theorem filter_append_singleton_length {α : Type} (q : α → Bool) (l : List α)
    (a : α) :
    (List.filter q (l ++ [a])).length ≤ (List.filter q l).length + 1 := by
  rw [List.filter_append, List.length_append]
  have h1 : (List.filter q [a]).length ≤ 1 := by
    by_cases h : q a = true <;> simp [List.filter_cons, h]
  omega

theorem seekCleanup_scrollCount_le (dl : List DanmakuItem) (cs : ℤ) (p : ℚ)
    (s : SchedState) :
    activeScrollCount (seekCleanup dl cs p s) ≤ activeScrollCount s :=
  List.Sublist.length_le
    (List.Sublist.filter _ (seekCleanup_active_sublist dl cs p s))

theorem createDanmakuInstance_scrollCount (env : Env) (p : ℚ)
    (s : SchedState) (item : DanmakuItem) (track : Option ℕ)
    (hguard : s.active.any (fun kv => decide (kv.1 = keyOf item)) = false) :
    activeScrollCount ((createDanmakuInstance env p s item track).2) ≤
      activeScrollCount s + 1 := by
  simp only [createDanmakuInstance, activeScrollCount]
  split_ifs <;> dsimp only <;>
    first
      | omega
      | (rw [mapSet_of_not_mem _ _ _ hguard]
         exact filter_append_singleton_length _ _ _)

theorem admitItem_scrollCount (env : Env) (p : ℚ) (s : SchedState)
    (item : DanmakuItem) :
    activeScrollCount (admitItem env p s item) ≤ activeScrollCount s + 1 := by
  simp only [admitItem]
  split_ifs with h1 h2 h3
  · omega
  · omega
  · have hguard : s.active.any (fun kv => decide (kv.1 = keyOf item)) = false := by
      cases hb : s.active.any (fun kv => decide (kv.1 = keyOf item)) with
      | false => rfl
      | true => exact absurd hb h2
    cases hft : findAvailableTrack s.tracks (env.measure item)
        env.containerWidth env.now with
    | none => dsimp only; omega
    | some t =>
      dsimp only
      have := createDanmakuInstance_scrollCount env p s item (some t) hguard
      cases hc : createDanmakuInstance env p s item (some t) with
      | mk inst s' =>
        rw [hc] at this
        cases inst with
        | none => exact this
        | some i => exact this
  · have hguard : s.active.any (fun kv => decide (kv.1 = keyOf item)) = false := by
      cases hb : s.active.any (fun kv => decide (kv.1 = keyOf item)) with
      | false => rfl
      | true => exact absurd hb h2
    exact createDanmakuInstance_scrollCount env p s item none hguard

theorem foldl_admitItem_scrollCount (env : Env) (p : ℚ)
    (l : List DanmakuItem) :
    ∀ s : SchedState,
      activeScrollCount (l.foldl (admitItem env p) s) ≤
        activeScrollCount s + l.length := by
  induction l with
  | nil => intro s; simp
  | cons a l ih =>
    intro s
    have h1 := ih (admitItem env p s a)
    have h2 := admitItem_scrollCount env p s a
    simp only [List.foldl_cons, List.length_cons]
    omega

theorem selectByDensity_le_capacity (env : Env) (sc : ℕ)
    (due : List DanmakuItem) (hd0 : 0 ≤ env.density)
    (hsc : (sc : ℤ) ≤ maxConcurrent env.density) :
    ((selectByDensity env sc due).length : ℤ) ≤
      maxConcurrent env.density - (sc : ℤ) := by
  have hdbc0 : (0 : ℤ) ≤ ⌈((due.length : ℚ) * env.density) / 100⌉ := by
    apply Int.ceil_nonneg
    apply div_nonneg
    · exact mul_nonneg (Nat.cast_nonneg _) hd0
    · norm_num
  simp only [selectByDensity]
  split_ifs with h
  · have htc0 : (0 : ℤ) ≤ min (min (maxConcurrent env.density - (sc : ℤ))
        ⌈((due.length : ℚ) * env.density) / 100⌉) 3 :=
      le_min (le_min (by omega) hdbc0) (by norm_num)
    have := jsSlice_length_le (env.shuffle due)
      (min (min (maxConcurrent env.density - (sc : ℤ))
        ⌈((due.length : ℚ) * env.density) / 100⌉) 3) htc0
    omega
  · have hlen : due.length = 0 := by omega
    rw [hlen]
    omega

/-- The bound on the post-admission scroll count for one tick branch:
the admission loop starts from a state not larger than the pre-tick one and
adds at most the selected count, which fits in the remaining capacity. -/
theorem scrollCount_branch_le (env : Env) (s s₂ : SchedState) (p : ℚ)
    (due : List DanmakuItem)
    (hd0 : 0 ≤ env.density)
    (hsc : (activeScrollCount s : ℤ) ≤ maxConcurrent env.density)
    (hclean : activeScrollCount s₂ ≤ activeScrollCount s) :
    (activeScrollCount
      (List.foldl (admitItem env p) { s₂ with lastDanmakuTime := p }
        (selectByDensity env (activeScrollCount s) due)) : ℤ) ≤
      maxConcurrent env.density := by
  have hsel := selectByDensity_le_capacity env (activeScrollCount s) due hd0 hsc
  have hfold : activeScrollCount
      (List.foldl (admitItem env p) { s₂ with lastDanmakuTime := p }
        (selectByDensity env (activeScrollCount s) due)) ≤
      activeScrollCount s₂ +
        (selectByDensity env (activeScrollCount s) due).length :=
    foldl_admitItem_scrollCount env p _ _
  omega

theorem tickCore_scrollCount_le (env : Env) (s : SchedState) (p : ℚ)
    (back : Bool) (hd0 : 0 ≤ env.density)
    (hsc : (activeScrollCount s : ℤ) ≤ maxConcurrent env.density) :
    (activeScrollCount (tickCore env s p back) : ℤ) ≤
      maxConcurrent env.density := by
  simp only [tickCore]
  split_ifs with h1 h2
  · refine le_trans ?_ hsc
    exact_mod_cast Nat.cast_le.mpr
      (seekCleanup_scrollCount_le env.danmakuList ⌊p⌋ p s)
  · exact scrollCount_branch_le env s (seekCleanup env.danmakuList ⌊p⌋ p s)
      p (env.danmakuList.filter (fun it => decide (⌊it.time⌋ = ⌊p⌋)))
      hd0 hsc (seekCleanup_scrollCount_le env.danmakuList ⌊p⌋ p s)
  · exact hsc
  · exact scrollCount_branch_le env s s p
      (dueFilter env.danmakuList ⌊p⌋
        ((displayInterval env.density).map (fun i => max 1 ⌈i⌉)))
      hd0 hsc le_rfl

theorem tick_scrollCount_le (env : Env) (s : SchedState) (p : ℚ)
    (hd0 : 0 ≤ env.density)
    (hsc : (activeScrollCount s : ℤ) ≤ maxConcurrent env.density) :
    (activeScrollCount (tick env s p) : ℤ) ≤ maxConcurrent env.density := by
  simp only [tick]
  split_ifs with h1 h2
  · exact hsc
  · exact hsc
  · exact tickCore_scrollCount_le env _ p _ hd0 hsc

/-- After a backward-seek core run, every active instance was admitted at or
before the new playback position: survivors of the repair by
`seekCleanup_active_le`, new admissions because they start at `p`. -/
theorem tickCore_true_active_le (env : Env) (s : SchedState) (p : ℚ) :
    ∀ kv ∈ (tickCore env s p true).active, kv.2.startTime ≤ p := by
  intro kv hkv
  simp only [tickCore, eq_self_iff_true, if_true] at hkv
  split_ifs at hkv with h
  · exact seekCleanup_active_le _ _ _ _ kv hkv
  · rcases foldl_admitItem_active_mem env p _ _ kv hkv with h' | h'
    · exact seekCleanup_active_le env.danmakuList ⌊p⌋ p s kv h'
    · exact le_of_eq h'

/-! ## Claim theorems -/

/-- C5: the lane allocator scans lanes in increasing index order and returns
the first lane in which the candidate's entry span at the right boundary does
not overlap any active occupant's span computed from the wall-clock elapsed
time since its `startTimestamp`; it returns no lane exactly when every lane
conflicts, and in that case the admission step drops the event, leaving the
scheduler state unchanged. -/
theorem findAvailableTrack_first_fit (tracks : List (List Instance))
    (w cw now : ℚ) :
    (∀ t : ℕ, findAvailableTrack tracks w cw now = some t ↔
        t < tracks.length ∧
        trackHasConflict w cw now (tracks.getD t []) = false ∧
        ∀ j, j < t → trackHasConflict w cw now (tracks.getD j []) = true) ∧
    (findAvailableTrack tracks w cw now = none ↔
        ∀ j, j < tracks.length →
          trackHasConflict w cw now (tracks.getD j []) = true) ∧
    (∀ (env : Env) (p : ℚ) (s : SchedState) (item : DanmakuItem),
        item.type = 1 →
        findAvailableTrack s.tracks (env.measure item) env.containerWidth
          env.now = none →
        admitItem env p s item = s) :=
  ⟨fun t => findAvailableTrackGo_some w cw now tracks t,
   findAvailableTrackGo_none w cw now tracks,
   fun env p s item h1 h2 => admitItem_of_no_track env p s item h1 h2⟩

/-- C1 (amended): when an admitted scroll event finds no available lane at
its tick, the event is dropped for that tick (not queued) and the state is
left untouched — in particular its dedup key is NOT added to the dedup set,
so the same event may be reconsidered at later ticks while it remains in the
sampling window. -/
theorem no_lane_drop_leaves_state (env : Env) (p : ℚ) (s : SchedState)
    (item : DanmakuItem) (h1 : item.type = 1)
    (h2 : findAvailableTrack s.tracks (env.measure item) env.containerWidth
      env.now = none) :
    admitItem env p s item = s ∧
    (admitItem env p s item).displayed = s.displayed := by
  have h := admitItem_of_no_track env p s item h1 h2
  exact ⟨h, by rw [h]⟩

unseal Rat.add Rat.mul Rat.sub Rat.inv in
theorem no_lane_drop_leaves_state_witness :
    admitItem envOneLaneBlocked 5 stateOneLaneBlocked itemX5 =
      stateOneLaneBlocked ∧
    (admitItem envOneLaneBlocked 5 stateOneLaneBlocked itemX5).displayed =
      stateOneLaneBlocked.displayed :=
  no_lane_drop_leaves_state envOneLaneBlocked 5 stateOneLaneBlocked itemX5
    rfl (by decide)

unseal Rat.add Rat.mul Rat.sub Rat.inv in
/-- C1 counterexample: at a tick whose admission step runs (the
last-admission time is updated to the tick's position) and whose only due
scroll event finds every lane blocked, the event's dedup key is NOT added to
the dedup set and no instance is created — the claim asserts the key would
still be marked admitted. -/
theorem no_lane_dedup_counterexample :
    (tick envOneLaneBlocked stateOneLaneBlocked 5).lastDanmakuTime = 5 ∧
    keyOf itemX5 ∉ (tick envOneLaneBlocked stateOneLaneBlocked 5).displayed ∧
    (tick envOneLaneBlocked stateOneLaneBlocked 5).active =
      stateOneLaneBlocked.active := by
  decide

/-- C4 (amended): for a tick at playback position t with density d in
(0, 100], the forward-tick window value is max(1, ceil(100/d)) seconds; the
candidates considered due on a forward tick are exactly the events whose
FLOOR of dueTime lies in [floor(t), floor(t) + window) — not those with
dueTime in the real-valued interval [t, t + window) — and on a backward-seek
tick the due set is recomputed as the events with floor(dueTime) =
floor(t). -/
theorem due_window_floor (d t : ℚ) (l : List DanmakuItem) (it : DanmakuItem)
    (h0 : 0 < d) (h100 : d ≤ 100) :
    (displayInterval d).map (fun i => max 1 ⌈i⌉) = some (max 1 ⌈100 / d⌉) ∧
    (it ∈ dueFilter l ⌊t⌋ (some (max 1 ⌈100 / d⌉)) ↔
      it ∈ l ∧ ⌊t⌋ ≤ ⌊it.time⌋ ∧ ⌊it.time⌋ < ⌊t⌋ + max 1 ⌈100 / d⌉) ∧
    (it ∈ l.filter (fun x => decide (⌊x.time⌋ = ⌊t⌋)) ↔
      it ∈ l ∧ ⌊it.time⌋ = ⌊t⌋) := by
  refine ⟨?_, ?_, ?_⟩
  · rw [displayInterval, if_pos h0]
    have h1 : (1 : ℚ) ≤ 100 / d := by
      rw [le_div_iff₀ h0]
      linarith
    have hd2 : (1 : ℚ)/2 ≤ 100 / d := by linarith
    rw [Option.map_some', max_eq_right hd2]
  · simp [dueFilter, twOk, List.mem_filter, and_assoc]
  · simp [List.mem_filter]

unseal Rat.add Rat.mul Rat.sub Rat.inv in
theorem due_window_floor_witness :
    (displayInterval 100).map (fun i => max 1 ⌈i⌉) =
      some (max 1 ⌈(100 : ℚ) / 100⌉) ∧
    (itemEarly ∈ dueFilter [itemEarly] ⌊(11/2 : ℚ)⌋
        (some (max 1 ⌈(100 : ℚ) / 100⌉)) ↔
      itemEarly ∈ [itemEarly] ∧ ⌊(11/2 : ℚ)⌋ ≤ ⌊itemEarly.time⌋ ∧
        ⌊itemEarly.time⌋ < ⌊(11/2 : ℚ)⌋ + max 1 ⌈(100 : ℚ) / 100⌉) ∧
    (itemEarly ∈ [itemEarly].filter
        (fun x => decide (⌊x.time⌋ = ⌊(11/2 : ℚ)⌋)) ↔
      itemEarly ∈ [itemEarly] ∧ ⌊itemEarly.time⌋ = ⌊(11/2 : ℚ)⌋) :=
  due_window_floor 100 (11/2) [itemEarly] itemEarly (by norm_num) (by norm_num)

unseal Rat.add Rat.mul Rat.sub Rat.inv in
/-- C4 counterexample: at playback position 5.5 with density 100 (window 1),
the event due at 5.1 is considered due by the source's floor-based filter,
although its dueTime does not lie in the claim's half-open interval
[5.5, 6.5). -/
theorem due_window_floor_counterexample :
    itemEarly ∈ dueFilter [itemEarly] ⌊(11/2 : ℚ)⌋
      ((displayInterval 100).map (fun i => max 1 ⌈i⌉)) ∧
    ¬ ((11/2 : ℚ) ≤ itemEarly.time ∧ itemEarly.time < 11/2 + 1) := by
  decide

/-- C6 (amended): when the playback clock decreases, both per-tick admission
gates (the admission-rate interval check and the concurrency cap) are
bypassed and the tick runs the repair-then-admit core, in which the repair
precedes the admission step; after the tick every active instance was
admitted at or before the new position.  The source keys the repair on the
admission-time playback position (`startTime`), not on the event's dueTime:
an instance whose dueTime lies after the new position but whose admission
position does not survives (see the counterexample). -/
theorem backward_seek_repair (env : Env) (s : SchedState) (p : ℚ)
    (h : p < s.lastCurrentTime) :
    tick env s p = tickCore env { s with lastCurrentTime := p } p true ∧
    ∀ kv ∈ (tick env s p).active, kv.2.startTime ≤ p := by
  refine ⟨tick_backward_eq env s p h, ?_⟩
  rw [tick_backward_eq env s p h]
  exact tickCore_true_active_le env _ p

unseal Rat.add Rat.mul Rat.sub Rat.inv in
theorem backward_seek_repair_witness :
    tick envEmptyList stateEarlyAdmitted 9 =
      tickCore envEmptyList { stateEarlyAdmitted with lastCurrentTime := 9 }
        9 true ∧
    ∀ kv ∈ (tick envEmptyList stateEarlyAdmitted 9).active,
      kv.2.startTime ≤ 9 :=
  backward_seek_repair envEmptyList stateEarlyAdmitted 9 (by decide)

unseal Rat.add Rat.mul Rat.sub Rat.inv in
/-- C6 counterexample: the clock jumps from 20 back to 9 while an instance
with dueTime 10 (admitted early, at playback position 8) is active; the
backward tick does NOT force-expire it — it remains active although its
dueTime lies after the new position. -/
theorem backward_seek_duetime_counterexample :
    (9 : ℚ) < stateEarlyAdmitted.lastCurrentTime ∧
    ((tick envEmptyList stateEarlyAdmitted 9).active.any
      (fun kv => decide ((9 : ℚ) < kv.2.item.time) && kv.2.isActive)) = true := by
  decide

/-- C7: `DanmakuPool.release` resets the element and appends it to the
free-list exactly when the free-list holds fewer than `maxPoolSize` (100)
elements, and discards it otherwise; consequently, after any sequence of
pool operations the free-list holds at most 100 elements. -/
theorem pool_release_capacity :
    (∀ (pool : List Handle) (e : Handle),
      (pool.length < maxPoolSize →
        DanmakuPool.release pool e = pool ++ [resetElement e]) ∧
      (¬ pool.length < maxPoolSize → DanmakuPool.release pool e = pool)) ∧
    (∀ ops : List PoolOp, (runPool ops).length ≤ maxPoolSize) := by
  refine ⟨fun pool e => ⟨fun h => ?_, fun h => ?_⟩, fun ops => ?_⟩
  · simp [DanmakuPool.release, h]
  · simp [DanmakuPool.release, h]
  · exact foldl_applyPoolOp_length_le ops [] (by simp [maxPoolSize])

/-- C9 (amended): a second tick at the same playback position p leaves the
scheduler state (in particular the active-instance set) unchanged provided
the first tick at p performed an admission, i.e. recorded p as the
last-admission time; without that proviso the second tick may admit further
events (see the counterexample). -/
theorem seek_repeat_noop (env : Env) (s : SchedState) (p : ℚ)
    (h : (tick env s p).lastDanmakuTime = p) :
    tick env (tick env s p) p = tick env s p := by
  have hlc : (tick env s p).lastCurrentTime = p := tick_lastCurrentTime env s p
  have hnb : ¬ p < (tick env s p).lastCurrentTime := by
    rw [hlc]
    exact lt_irrefl p
  have hib : intervalBlocks (displayInterval env.density)
      (p - (tick env s p).lastDanmakuTime) = true := by
    rw [h, sub_self]
    exact intervalBlocks_zero env.density
  rw [tick_forward_blocked_eq env (tick env s p) p hnb hib]
  exact setLastCurrentTime_eq _ _ hlc

unseal Rat.add Rat.mul Rat.sub Rat.inv in
theorem seek_repeat_noop_witness :
    tick envLateEvent (tick envLateEvent stateAfter20 8) 8 =
      tick envLateEvent stateAfter20 8 :=
  seek_repeat_noop envLateEvent stateAfter20 8 (by decide)

unseal Rat.add Rat.mul Rat.sub Rat.inv in
/-- C9 counterexample: a backward seek tick at position 7 admits nothing
(the only event, due at 8, is outside the backward window), but repeating
the tick at 7 — now a forward tick with the wider two-second sampling
window — admits the event due at 8: two successive ticks at the same
position do not produce the active set of a single tick. -/
theorem seek_repeat_counterexample :
    (tick envLateEvent stateAfter20 7).active = [] ∧
    (tick envLateEvent (tick envLateEvent stateAfter20 7) 7).active ≠ [] := by
  decide

/-- C10: with density 0 no event is ever admitted: a forward tick returns at
the admission-interval gate (the interval is infinite) leaving the state
unchanged except for the recorded position, and a backward-seek tick (from
any state respecting the density-0 concurrency cap of 5) selects the empty
subset, so the tick creates no instance — every surviving active entry was
already present. -/
theorem density_zero_no_admission (env : Env) (s : SchedState) (p : ℚ)
    (hd : env.density = 0) :
    (s.lastCurrentTime ≤ p →
      tick env s p = { s with lastCurrentTime := p }) ∧
    (activeScrollCount s ≤ 5 →
      ∀ kv ∈ (tick env s p).active, kv ∈ s.active) := by
  have hnone : displayInterval env.density = none := by
    rw [hd]
    exact displayInterval_zero
  constructor
  · intro hle
    apply tick_forward_blocked_eq env s p (not_lt.mpr hle)
    rw [hnone]
    rfl
  · intro hsc kv hkv
    by_cases hlt : p < s.lastCurrentTime
    · rw [tick_backward_eq env s p hlt] at hkv
      have hsel : selectByDensity env
          (activeScrollCount { s with lastCurrentTime := p })
          (env.danmakuList.filter (fun it => decide (⌊it.time⌋ = ⌊p⌋))) = [] :=
        selectByDensity_zero env _ _ hd hsc
      simp only [tickCore, eq_self_iff_true, if_true, hsel,
        List.isEmpty_nil] at hkv
      exact (seekCleanup_active_sublist env.danmakuList ⌊p⌋ p
        { s with lastCurrentTime := p }).subset hkv
    · rw [tick_forward_blocked_eq env s p hlt (by rw [hnone]; rfl)] at hkv
      exact hkv

/-- C2: for a fixed density in [0, 100] (any nonnegative density suffices),
starting from the initial state, after every tick of any run — forward ticks
and backward-seek ticks alike — the number of active scroll instances never
exceeds max(5, floor(density/100 x 50)). -/
theorem capacity_bound (env : Env) (n : ℕ) (ps : List ℚ)
    (hd0 : 0 ≤ env.density) :
    (activeScrollCount (runTicks env (initState n) ps) : ℤ) ≤
      maxConcurrent env.density := by
  have hinit : (activeScrollCount (initState n) : ℤ) ≤
      maxConcurrent env.density := by
    have h0 : activeScrollCount (initState n) = 0 := rfl
    rw [h0]
    calc ((0 : ℕ) : ℤ) ≤ 5 := by norm_num
      _ ≤ maxConcurrent env.density := le_max_left _ _
  suffices h : ∀ (qs : List ℚ) (s : SchedState),
      (activeScrollCount s : ℤ) ≤ maxConcurrent env.density →
      (activeScrollCount (runTicks env s qs) : ℤ) ≤
        maxConcurrent env.density from h ps (initState n) hinit
  intro qs
  induction qs with
  | nil => intro s h; exact h
  | cons q qs ih =>
    intro s h
    exact ih _ (tick_scrollCount_le env s q hd0 h)

unseal Rat.add Rat.mul Rat.sub Rat.inv in
theorem capacity_bound_witness :
    (activeScrollCount (runTicks envLateEvent (initState 1) [7, 8]) : ℤ) ≤
      maxConcurrent envLateEvent.density :=
  capacity_bound envLateEvent 1 [7, 8] (by decide)

/-- C3: for a tick whose due-candidate list has `due.length` entries, with a
length-preserving shuffle, density in [0, 100] and the scroll count within
the concurrency cap, the number of events selected for admission equals
min(remainingCapacity, ceil(dueCount x density / 100), 3), and in
particular never exceeds 3. -/
theorem selection_count (env : Env) (due : List DanmakuItem) (sc : ℕ)
    (hshuf : (env.shuffle due).length = due.length)
    (hd0 : 0 ≤ env.density) (hd100 : env.density ≤ 100)
    (hsc : (sc : ℤ) ≤ maxConcurrent env.density) :
    ((selectByDensity env sc due).length : ℤ) =
      min (min (maxConcurrent env.density - (sc : ℤ))
        ⌈((due.length : ℚ) * env.density) / 100⌉) 3 ∧
    (selectByDensity env sc due).length ≤ 3 := by
  have hrc : (0 : ℤ) ≤ maxConcurrent env.density - (sc : ℤ) := by omega
  have harg : (0 : ℚ) ≤ ((due.length : ℚ) * env.density) / 100 := by
    apply div_nonneg
    · exact mul_nonneg (Nat.cast_nonneg _) hd0
    · norm_num
  have hdbc0 : (0 : ℤ) ≤ ⌈((due.length : ℚ) * env.density) / 100⌉ :=
    Int.ceil_nonneg harg
  have hdbcn : ⌈((due.length : ℚ) * env.density) / 100⌉ ≤ (due.length : ℤ) := by
    rw [Int.ceil_le]
    rw [div_le_iff₀ (by norm_num : (0 : ℚ) < 100)]
    push_cast
    exact mul_le_mul_of_nonneg_left hd100 (Nat.cast_nonneg _)
  have htc0 : (0 : ℤ) ≤ min (min (maxConcurrent env.density - (sc : ℤ))
      ⌈((due.length : ℚ) * env.density) / 100⌉) 3 :=
    le_min (le_min hrc hdbc0) (by norm_num)
  have hmain : ((selectByDensity env sc due).length : ℤ) =
      min (min (maxConcurrent env.density - (sc : ℤ))
        ⌈((due.length : ℚ) * env.density) / 100⌉) 3 := by
    by_cases h : 0 < due.length
    · have hle : min (min (maxConcurrent env.density - (sc : ℤ))
          ⌈((due.length : ℚ) * env.density) / 100⌉) 3 ≤
            ((env.shuffle due).length : ℤ) := by
        rw [hshuf]
        calc min (min (maxConcurrent env.density - (sc : ℤ))
              ⌈((due.length : ℚ) * env.density) / 100⌉) 3
            ≤ min (maxConcurrent env.density - (sc : ℤ))
              ⌈((due.length : ℚ) * env.density) / 100⌉ := min_le_left _ _
          _ ≤ ⌈((due.length : ℚ) * env.density) / 100⌉ := min_le_right _ _
          _ ≤ (due.length : ℤ) := hdbcn
      simp only [selectByDensity, if_pos h]
      exact jsSlice_length_eq _ _ htc0 hle
    · have hlen : due.length = 0 := by omega
      simp only [selectByDensity]
      rw [if_neg h, hlen]
      norm_num
      omega
  refine ⟨hmain, ?_⟩
  have h3 : ((selectByDensity env sc due).length : ℤ) ≤ 3 := by
    rw [hmain]
    exact min_le_right _ _
  exact_mod_cast h3

unseal Rat.add Rat.mul Rat.sub Rat.inv in
theorem selection_count_witness :
    ((selectByDensity envDensity10 0 dueTen).length : ℤ) =
      min (min (maxConcurrent envDensity10.density - ((0 : ℕ) : ℤ))
        ⌈((dueTen.length : ℚ) * envDensity10.density) / 100⌉) 3 ∧
    (selectByDensity envDensity10 0 dueTen).length ≤ 3 :=
  selection_count envDensity10 dueTen 0 rfl (by decide) (by decide) (by decide)

/-- C8: the keys of the active-instance map stay pairwise distinct across
every tick (for each identity key (dueTime, text) at most one instance is in
Active state), and admitting an event whose key is already in the dedup set
or already keys an active instance creates no new instance — the admission
step leaves the state unchanged. -/
theorem dedup_unique_active (env : Env) (s : SchedState) (p : ℚ)
    (item : DanmakuItem) (hN : (s.active.map Prod.fst).Nodup) :
    ((tick env s p).active.map Prod.fst).Nodup ∧
    (keyOf item ∈ s.displayed ∨ keyOf item ∈ s.active.map Prod.fst →
      admitItem env p s item = s) := by
  refine ⟨tick_keys_nodup env s p hN, fun hk => ?_⟩
  rcases hk with hk | hk
  · simp [admitItem, hk]
  · have hany : s.active.any (fun kv => decide (kv.1 = keyOf item)) = true := by
      obtain ⟨kv, hkv, hfst⟩ := List.mem_map.mp hk
      exact List.any_eq_true.mpr ⟨kv, hkv, by simp [hfst]⟩
    by_cases hd : keyOf item ∈ s.displayed
    · simp [admitItem, hd]
    · simp [admitItem, hd, hany]

unseal Rat.add Rat.mul Rat.sub Rat.inv in
theorem dedup_unique_active_witness :
    ((tick envLateEvent stateAfter20 8).active.map Prod.fst).Nodup ∧
    (keyOf itemX5 ∈ stateAfter20.displayed ∨
        keyOf itemX5 ∈ stateAfter20.active.map Prod.fst →
      admitItem envLateEvent 8 stateAfter20 itemX5 = stateAfter20) :=
  dedup_unique_active envLateEvent stateAfter20 8 itemX5 (by decide)

unseal Rat.add Rat.mul Rat.sub Rat.inv in
theorem density_zero_no_admission_witness :
    (stateAfter20.lastCurrentTime ≤ 25 →
      tick envZeroDensity stateAfter20 25 =
        { stateAfter20 with lastCurrentTime := 25 }) ∧
    (activeScrollCount stateAfter20 ≤ 5 →
      ∀ kv ∈ (tick envZeroDensity stateAfter20 25).active,
        kv ∈ stateAfter20.active) :=
  density_zero_no_admission envZeroDensity stateAfter20 25 rfl

end Danmaku
